import Mathlib

/-!
Verification of the JupiterLibrary agreement schedule engine.

The definitions below are a shallow embedding of the `JupiterDoc` class
(term date resolution, payment model resolution, payment period calendar,
payment schedule generation, amendment overlay, and purchase price
settlement).  JavaScript numbers are modelled as rationals, JavaScript
`Date`/luxon `DateTime` values at day granularity as a calendar date record,
and nullable values as `Option`.  Helper functions imported by the class
from its `utils` module and not present in the sources are modelled from the
specification and marked as such in their doc comments.
-/

namespace Jupiter

/-- JavaScript nullish coalescing `a ?? b` on nullable values. -/
def jsOr {α : Type} : Option α → Option α → Option α
  | some x, _ => some x
  | none, b => b

/-- Truthiness of a nullable JavaScript number: `null`, `undefined` and `0` are falsy. -/
def jsTruthyNum (x : Option ℚ) : Bool :=
  match x with
  | none => false
  | some q => decide (q ≠ 0)

/-- Truthiness of a nullable JavaScript string: `null`, `undefined` and the empty string are falsy. -/
def jsTruthyStr (s : Option String) : Bool :=
  match s with
  | none => false
  | some t => decide (t ≠ "")

/-- JavaScript `Math.max` on two numbers, written with a reducible
conditional so that concrete evaluations compute. -/
def jsMax (a b : ℚ) : ℚ :=
  if a ≤ b then b else a

/-- The binary `jsMax` agrees with the lattice maximum. -/
theorem jsMax_eq_max (a b : ℚ) : jsMax a b = max a b :=
  (max_def a b).symm

/-- Truthiness of a nullable JavaScript integer (used for day-lag fields). -/
def jsTruthyInt (x : Option Int) : Bool :=
  match x with
  | none => false
  | some n => decide (n ≠ 0)

/-- Calendar date at day granularity, standing for a luxon `DateTime` at
midnight local time.  All date values produced by the engine are day-aligned. -/
structure DateD where
  year : Int
  month : Int
  day : Int
deriving DecidableEq, Repr

/-- Gregorian leap year test. -/
def isLeap (y : Int) : Bool :=
  y % 4 == 0 && (y % 100 != 0 || y % 400 == 0)

/-- Number of days in a month of a given year. -/
def daysInMonthD (y m : Int) : Int :=
  if m = 2 then (if isLeap y then 29 else 28)
  else if m = 4 ∨ m = 6 ∨ m = 9 ∨ m = 11 then 30
  else 31

/-- Days in the year a date falls in, as a rational (used for day-count weights). -/
def daysInYearD (d : DateD) : ℚ :=
  if isLeap d.year then 366 else 365

/-- Serial day number of a calendar date (days since 1970-01-01, Gregorian). -/
def toSerial (d : DateD) : Int :=
  let y := d.year - (if d.month ≤ 2 then 1 else 0)
  let era := Int.fdiv y 400
  let yoe := y - era * 400
  let mp := (d.month + 9) % 12
  let doy := Int.fdiv (153 * mp + 2) 5 + d.day - 1
  let doe := yoe * 365 + Int.fdiv yoe 4 - Int.fdiv yoe 100 + doy
  era * 146097 + doe - 719468

/-- Calendar date of a serial day number (inverse of `toSerial` on valid dates). -/
def ofSerial (z0 : Int) : DateD :=
  let z := z0 + 719468
  let era := Int.fdiv z 146097
  let doe := z - era * 146097
  let yoe := Int.fdiv (doe - Int.fdiv doe 1460 + Int.fdiv doe 36524 - Int.fdiv doe 146096) 365
  let y := yoe + era * 400
  let doy := doe - (365 * yoe + Int.fdiv yoe 4 - Int.fdiv yoe 100)
  let mp := Int.fdiv (5 * doy + 2) 153
  let d := doy - Int.fdiv (153 * mp + 2) 5 + 1
  let m := mp + (if mp < 10 then 3 else -9)
  ⟨y + (if m ≤ 2 then 1 else 0), m, d⟩

/-- luxon `plus({days: n})`. -/
def plusDays (d : DateD) (n : Int) : DateD :=
  ofSerial (toSerial d + n)

/-- luxon `plus({months: n})`: month arithmetic with the day of month clamped
to the length of the target month. -/
def plusMonths (d : DateD) (n : Int) : DateD :=
  let tot := d.year * 12 + (d.month - 1) + n
  let y := Int.fdiv tot 12
  let m := tot % 12 + 1
  ⟨y, m, min d.day (daysInMonthD y m)⟩

/-- luxon `plus({years: n})`: year arithmetic with Feb 29 clamped to Feb 28. -/
def plusYears (d : DateD) (n : Int) : DateD :=
  ⟨d.year + n, d.month, min d.day (daysInMonthD (d.year + n) d.month)⟩

/-- Date comparison, as luxon compares `DateTime` values by timestamp. -/
def dle (a b : DateD) : Prop := toSerial a ≤ toSerial b

instance (a b : DateD) : Decidable (dle a b) := by
  unfold dle; infer_instance

/-- Modelled from the spec: `utils.calculateCompoundingGrowth` (the `utils.js`
module is not among the sources).  Section 4.1: compounding growth is
`base × (1+rate)^periods`.  The engine only ever calls it with an integer
period count, so the exponent is a natural number here. -/
def calculateCompoundingGrowth (base rate : ℚ) (periods : ℕ) : ℚ :=
  base * (1 + rate) ^ periods

/-- Modelled from the spec: `utils.getEarliestDateTime` (missing `utils.js`).
Earliest of the given dates, ignoring null arguments. -/
def getEarliestDateTime : Option DateD → Option DateD → Option DateD
  | none, b => b
  | some a, none => some a
  | some a, some b => some (if toSerial a ≤ toSerial b then a else b)

/-- Modelled from the spec: `utils.getEarliestDateTimeFromArray` (missing
`utils.js`).  Earliest of the dates in the array, ignoring null entries. -/
def getEarliestDateTimeFromArray (l : List (Option DateD)) : Option DateD :=
  l.foldl getEarliestDateTime none

/-- Modelled from the spec: `utils.plusDuration` combined with the noon
rounding applied at its only call site (missing `utils.js`).  Section 4.3:
the end date is the start plus the duration implied by `term_length_years`,
"rounding the fractional-year addition to whole days, rounding up when the
residual time-of-day component is ≥ noon".  Whole years are added as
calendar years and the fractional residue as a day count of the rounded
fraction of a 365-day year. -/
def plusTermLength (start : DateD) (years : ℚ) : DateD :=
  let yi : Int := ⌊years⌋
  let dayFrac : ℚ := (years - yi) * 365
  let wholeDays : Int := ⌊dayFrac⌋ + (if (1 : ℚ) / 2 ≤ dayFrac - ⌊dayFrac⌋ then 1 else 0)
  plusDays (plusYears start yi) wholeDays

/-- One payee of the agreement (`grantor[]` entry).  The name and other
string-identity fields are omitted: no verified property depends on them. -/
structure Grantor where
  payment_split : Option ℚ := none
deriving DecidableEq, Repr

/-- Operational details fact fields used by the engine. -/
structure OpDetails where
  commencement_date : Option DateD := none
  construction_commencement : Option DateD := none
  operations_commencement : Option DateD := none
  mw : Option ℚ := none
  inverter_count : Option ℚ := none
  inverter_rating_mvas : Option ℚ := none
deriving DecidableEq, Repr

/-- A generated payment event.  String-identity fields (`model_id`,
`project_id`, `payee`, `payment_type`) and display formatting
(`toLocaleString`) are omitted: no verified property depends on them. -/
structure PaymentEvent where
  payment_source : String := ""
  payment_index : Int := 0
  payment_date : Option DateD := none
  late_payment_date : Option DateD := none
  payment_amount : ℚ := 0
  payment_period_start : Option DateD := none
  payment_period_end : Option DateD := none
  prorata_factor : Option ℚ := none
  applicable_to_purchase : Bool := false
  refundable : Bool := false
  after_outside_date : Bool := false
  previous_periods : Option ℚ := none
deriving DecidableEq, Repr

/-- An agreement term record, with the computed fields the resolver and the
schedule generator write into it. -/
structure AgreementTerm where
  term_ordinal : Int := 0
  term_type : Option String := none
  extension : Bool := false
  term_length_years : Option ℚ := none
  payment_model : Option String := none
  first_payment_start : Option String := none
  first_payment_date : Option DateD := none
  escalation_rate : Option ℚ := none
  increase_amount : Option ℚ := none
  start_date : Option DateD := none
  end_date : Option DateD := none
  cancelled_by_ops : Bool := false
  cumulative_increase_amount : Option ℚ := none
  cumulative_escalation_rate : Option ℚ := none
  periodic_payments : Option (List PaymentEvent) := none
deriving DecidableEq, Repr

/-- A term-based payment model. -/
structure TermPaymentModel where
  model_type : Option String := none
  payment_frequency : Option String := none
  minimum_payment : Option ℚ := none
  payment_per_mw : Option ℚ := none
  payment_per_mva : Option ℚ := none
  flat_payment_amount : Option ℚ := none
  payment_per_acre : Option ℚ := none
  periodic_escalation_rate : Option ℚ := none
  periodic_escalation_frequency : Option String := none
  increase_amount : Option ℚ := none
  prorated_first_period : Bool := false
  first_payment_lag : Option Int := none
  subsequent_payment_lag : Option Int := none
  apply_payment_lag_to_extension : Bool := false
  applicable_to_purchase : Bool := false
deriving DecidableEq, Repr

/-- A date-based payment model. -/
structure DatePaymentModel where
  date_one_time : Option DateD := none
  date_begin : Option DateD := none
  date_end : Option DateD := none
  frequency : Option String := none
  payment_amount : Option ℚ := none
  increase_amount : Option ℚ := none
  periodic_escalation_rate : Option ℚ := none
  first_payment_lag : Option Int := none
  subsequent_payment_lag : Option Int := none
  refundable : Bool := false
  applicable_to_purchase : Bool := false
deriving DecidableEq, Repr

/-- The `Termination` multi-field fact.  In the source it is always an object
(`?? {}`); `has_other_fields` records whether it carries metadata besides the
date, so that the `Object.keys(...).length > 0` check is representable. -/
structure Termination where
  termination_date : Option DateD := none
  has_other_fields : Bool := false
deriving DecidableEq, Repr

/-- A property description entry (only the fields the engine reads). -/
structure PropD where
  agreement_acres : Option ℚ := none
  exclude_acres_from_controlled_acres : Bool := false
deriving DecidableEq, Repr

/-- A document in the collection, restricted to the fields the verified
functions read or write. -/
structure Doc where
  id : Nat := 0
  agreement_group : Option String := none
  effective_date : Option DateD := none
  amendment_date : Option DateD := none
  letter_date : Option DateD := none
  deed_date : Option DateD := none
  payment_directive_date : Option DateD := none
  recorded_date : Option DateD := none
  outside_date : Option DateD := none
  estimated_closing_date : Option DateD := none
  date_purchased : Option DateD := none
  date_sold : Option DateD := none
  full_purchase_price : Option ℚ := none
  jupiter_entity : Option String := none
  grantee : Option String := none
  grantor : List Grantor := []
  property_description : List PropD := []
  agreement_terms : List AgreementTerm := []
  term_payment_models : List TermPaymentModel := []
  date_payment_models : List DatePaymentModel := []
  termination : Termination := {}
  operational_details : OpDetails := {}
  review_status : Option String := none
  review_status_notes : Option String := none
  date_payments : List PaymentEvent := []
deriving DecidableEq, Repr

/-- Stable insertion into a list sorted by an integer key (an element is
placed after all existing elements with a key less than or equal to its own,
matching the stability of `Array.prototype.sort`). -/
def insertByKey {α : Type} (key : α → Int) (x : α) : List α → List α
  | [] => [x]
  | y :: ys => if key x ≤ key y then x :: y :: ys else y :: insertByKey key x ys

/-- Stable sort by an integer key, as `Array.prototype.sort` with a numeric
comparator. -/
def sortByKey {α : Type} (key : α → Int) : List α → List α
  | [] => []
  | x :: xs => insertByKey key x (sortByKey key xs)

/-- The `agreementTerms.sort((a, b) => a.term_ordinal - b.term_ordinal)` step. -/
def sortByOrdinal (l : List AgreementTerm) : List AgreementTerm :=
  sortByKey AgreementTerm.term_ordinal l

/-- Start date of one term in `calcAgreementTermDates` (source lines 313-322):
an operational-milestone override for non-extension Construction/Operations
terms, otherwise the day after the previous term's end date, falling back to
the operational commencement date and then the effective date. -/
def resolveStartDate (effectiveDate : Option DateD) (op : OpDetails)
    (prev : Option AgreementTerm) (term : AgreementTerm) : Option DateD :=
  if term.term_type = some "Construction" ∧ term.extension = false ∧
      op.construction_commencement.isSome then
    op.construction_commencement
  else if term.term_type = some "Operations" ∧ term.extension = false ∧
      op.operations_commencement.isSome then
    op.operations_commencement
  else
    jsOr ((prev.bind AgreementTerm.end_date).map (fun d => plusDays d 1))
      (jsOr op.commencement_date effectiveDate)

/-- Cumulative increase amount for a term (source lines 366-368): the fold of
`increase_amount ?? 0` over all terms of the (sorted, in place mutated) term
array sharing the term's `payment_model` with ordinal at most its own.  Only
fields the pass never writes are read by the filter, so it is computed from
the sorted input list. -/
def cumulativeIncrease (allSorted : List AgreementTerm) (term : AgreementTerm) : ℚ :=
  (allSorted.filter (fun x =>
      decide (x.term_ordinal ≤ term.term_ordinal) &&
      decide (x.payment_model = term.payment_model))).foldl
    (fun acc t => acc + t.increase_amount.getD 0) 0

/-- Cumulative escalation rate for a term (source lines 371-373): the fold of
`× (1 + (escalation_rate ?? 0)/100)` over the same cohort. -/
def cumulativeEscalation (allSorted : List AgreementTerm) (term : AgreementTerm) : ℚ :=
  (allSorted.filter (fun x =>
      decide (x.term_ordinal ≤ term.term_ordinal) &&
      decide (x.payment_model = term.payment_model))).foldl
    (fun acc t => acc * (1 + t.escalation_rate.getD 0 / 100)) 1

/-- The pre-override end date of one term (source lines 328-340): the start
plus the duration implied by `term_length_years` (a zero or missing length
adds a zero duration), minus one day, capped at the termination date. -/
def resolveEndDate0 (tn : Termination) (term : AgreementTerm) (sd : Option DateD) :
    Option DateD :=
  (sd.map (fun s =>
    if jsTruthyNum term.term_length_years then
      plusTermLength s (term.term_length_years.getD 0)
    else s)).bind (fun e =>
      getEarliestDateTime tn.termination_date (some (plusDays e (-1))))

/-- The operational-milestone cancellation flag of one term (source lines
343-355): a non-Construction/Operations term whose start falls at or after
the earliest operational commencement is cancelled; otherwise the flag keeps
its prior value. -/
def resolveCancelled (op : OpDetails) (term : AgreementTerm) (sd : Option DateD) :
    Bool :=
  if term.term_type ≠ some "Construction" ∧ term.term_type ≠ some "Operations" then
    match getEarliestDateTime op.construction_commencement op.operations_commencement, sd with
    | some f, some s => if toSerial f ≤ toSerial s then true else term.cancelled_by_ops
    | _, _ => term.cancelled_by_ops
  else term.cancelled_by_ops

/-- The operational-milestone end date overrides of one term (source lines
343-361): a non-Construction/Operations term overlapping the earliest
operational commencement is cut short the day before it, and a Construction
term running past the Operations commencement is cut short the day before
that. -/
def resolveEndDate (op : OpDetails) (term : AgreementTerm) (sd end0 : Option DateD) :
    Option DateD :=
  if term.term_type ≠ some "Construction" ∧ term.term_type ≠ some "Operations" then
    match getEarliestDateTime op.construction_commencement op.operations_commencement,
        sd, end0 with
    | some f, some s, some e =>
      if toSerial f ≤ toSerial s then end0
      else if toSerial f ≤ toSerial e then some (plusDays f (-1))
      else end0
    | _, _, _ => end0
  else if term.term_type = some "Construction" then
    match op.operations_commencement, end0 with
    | some oc, some e =>
      if toSerial oc ≤ toSerial e then some (plusDays oc (-1)) else end0
    | _, _ => end0
  else end0

/-- One iteration of the `forEach` body of `calcAgreementTermDates` (source
lines 312-374), resolving a single term given the already-resolved previous
term.  The optional-chaining accesses on `start_date`/`end_date` can only see
null values in states the guard of `calcAgreementTermDates` excludes; those
branches leave the field unchanged. -/
def resolveTerm (allSorted : List AgreementTerm) (effectiveDate : Option DateD)
    (op : OpDetails) (tn : Termination) (prev : Option AgreementTerm)
    (term : AgreementTerm) : AgreementTerm :=
  let sd := resolveStartDate effectiveDate op prev term
  { term with
    start_date := sd
    end_date := resolveEndDate op term sd (resolveEndDate0 tn term sd)
    cancelled_by_ops := resolveCancelled op term sd
    cumulative_increase_amount := some (cumulativeIncrease allSorted term)
    cumulative_escalation_rate := some (cumulativeEscalation allSorted term) }

/-- The indexed `forEach` of `calcAgreementTermDates`, threading each resolved
term into the next iteration (the source mutates the terms in place and reads
`agreementTerms[index - 1].end_date`). -/
def resolveTerms (allSorted : List AgreementTerm) (effectiveDate : Option DateD)
    (op : OpDetails) (tn : Termination) :
    Option AgreementTerm → List AgreementTerm → List AgreementTerm
  | _, [] => []
  | prev, t :: rest =>
    let t2 := resolveTerm allSorted effectiveDate op tn prev t
    t2 :: resolveTerms allSorted effectiveDate op tn (some t2) rest

/-- `calcAgreementTermDates` (source lines 301-378): exits unchanged when
neither an effective date nor an operational commencement date exists,
otherwise resolves the terms sorted by `term_ordinal`.  (The
`final_term_end_date` report string is not modelled.) -/
def calcAgreementTermDates (agreementTerms : List AgreementTerm)
    (effectiveDate : Option DateD) (opDetails : OpDetails) (tn : Termination) :
    List AgreementTerm :=
  if effectiveDate = none ∧ opDetails.commencement_date = none then agreementTerms
  else
    let sorted := sortByOrdinal agreementTerms
    resolveTerms sorted effectiveDate opDetails tn none sorted

/-- `periodicBasePayment` (source lines 384-411): the largest of the candidate
payment computations, missing fields defaulting to 0, then the term-level
cumulative increase and escalation applied. -/
def periodicBasePayment (model : Option TermPaymentModel) (op_details : Option OpDetails)
    (cumulative_escalation_rate cumulative_increase_amount : ℚ)
    (agreement_acres : Option ℚ) : ℚ :=
  match model with
  | none => 0
  | some m =>
    let mw := (op_details.bind OpDetails.mw).getD 0
    let invCount := (op_details.bind OpDetails.inverter_count).getD 0
    let invRating := (op_details.bind OpDetails.inverter_rating_mvas).getD 0
    let base :=
      jsMax (jsMax (jsMax (jsMax (m.minimum_payment.getD 0)
        ((m.payment_per_mw.getD 0) * mw))
        (invCount * invRating * (m.payment_per_mva.getD 0)))
        (m.flat_payment_amount.getD 0))
        ((m.payment_per_acre.getD 0) * (agreement_acres.getD 0))
    (base + cumulative_increase_amount) * cumulative_escalation_rate

/-- `termPaymentModel` (source lines 417-426): null on a missing or empty
model list; otherwise the model whose `model_type` matches
`payment_model ?? term_type`, or the first model when the term carries no
(truthy) name. -/
def termPaymentModel (term : AgreementTerm)
    (paymentModels : Option (List TermPaymentModel)) : Option TermPaymentModel :=
  match paymentModels with
  | none => none
  | some l =>
    if l.length = 0 then none
    else
      let model_name := jsOr term.payment_model term.term_type
      if jsTruthyStr model_name then
        l.find? (fun x => decide (x.model_type = model_name))
      else l.head?

/-- The pre-clamp payment period end of `calcPaymentPeriodEnd` (source lines
434-456): under proration the natural calendar boundary, otherwise the
anniversary boundary; null for a frequency the branch does not recognize. -/
def naturalPeriodEnd (start_date : DateD) (frequency : Option String)
    (prorated : Bool) (term_end : DateD) : Option DateD :=
  if prorated then
    if frequency = some "Annually" then some ⟨start_date.year, 12, 31⟩
    else if frequency = some "Quarterly" then some (plusDays (plusMonths start_date 3) (-1))
    else if frequency = some "Monthly" then some (plusDays (plusMonths start_date 1) (-1))
    else none
  else
    if frequency = some "Annually" then some (plusDays (plusYears start_date 1) (-1))
    else if frequency = some "Semiannually" then some (plusDays (plusMonths start_date 6) (-1))
    else if frequency = some "Quarterly" then some (plusDays (plusMonths start_date 3) (-1))
    else if frequency = some "Monthly" then some (plusDays (plusMonths start_date 1) (-1))
    else if frequency = some "Once per Term" then some term_end
    else none

/-- `calcPaymentPeriodEnd` (source lines 431-460): the natural period end,
replaced by the term end when it falls at or after it.  An unset period end
(`undefined >= term_end` is false in JavaScript) is returned as null. -/
def calcPaymentPeriodEnd (start_date : DateD) (frequency : Option String)
    (prorated : Bool) (term_end : DateD) : Option DateD :=
  match naturalPeriodEnd start_date frequency prorated term_end with
  | none => none
  | some e => some (if toSerial term_end ≤ toSerial e then term_end else e)

/-- The JavaScript `outside_date ? payment_date.ts > outside_date.ts : false`
check attached to every emitted payment. -/
def afterOutside (outside_date : Option DateD) (payment_date : DateD) : Bool :=
  match outside_date with
  | some o => decide (toSerial o < toSerial payment_date)
  | none => false

/-- The per-grantor emission step of the standard term schedule loop
(source lines 657-682): one payment event per grantor, the grantor's split
defaulting to an equal share `100 / grantor.length`.  The loop-iteration
state (payment index `i`, dates, prorata factor, escalation context) enters
as parameters. -/
def standardTermEmission (grantors : List Grantor) (model : TermPaymentModel)
    (periodic_payment periodic_escalation_rate : ℚ)
    (periodic_escalation_frequency_index previous_periods : ℚ) (i : ℕ)
    (payment_date : DateD) (late_payment_date : Option DateD)
    (payment_period_start payment_period_end : DateD) (prorata_factor : ℚ)
    (outside_date : Option DateD) : List PaymentEvent :=
  grantors.map (fun g =>
    { payment_source := "Term Model"
      payment_index := (i : Int)
      payment_date := some payment_date
      late_payment_date := late_payment_date
      payment_amount :=
        calculateCompoundingGrowth
          ((periodic_payment + (model.increase_amount.getD 0) * (i : ℚ)) *
            ((g.payment_split.getD (100 / (grantors.length : ℚ))) / 100))
          (periodic_escalation_rate / 100)
          (Int.toNat ⌊(previous_periods + (i : ℚ)) / periodic_escalation_frequency_index⌋) *
          prorata_factor
      payment_period_start := some payment_period_start
      payment_period_end := some payment_period_end
      prorata_factor := some prorata_factor
      applicable_to_purchase := model.applicable_to_purchase
      refundable := false
      after_outside_date := afterOutside outside_date payment_date
      previous_periods := some (previous_periods + (i : ℚ)) })

/-- One entry of the list returned by `utils.blendedEscalation`, as consumed
by `calcBlendedPeriodicPaymentsForTerm` (fields read at source lines
507-537). -/
structure BlendedPeriod where
  payment_index : Int := 0
  payment_date : DateD := ⟨1970, 1, 1⟩
  min_date : Option DateD := none
  max_date : Option DateD := none
  date_count : ℚ := 0
  total_payment : ℚ := 0
deriving DecidableEq, Repr

/-- The payment-lag computation of the blended generator (source lines
509-516).  The `subsequent` branch tests the misspelled `p._payment_index`,
which is always undefined, so only the first payment can acquire a late
payment date; every other branch ends at null. -/
def blendedLateDate (model : TermPaymentModel) (term : AgreementTerm)
    (p : BlendedPeriod) : Option DateD :=
  if p.payment_index = 0 ∧ jsTruthyInt model.first_payment_lag ∧
      (term.extension = false ∨ model.apply_payment_lag_to_extension = true) then
    some (plusDays p.payment_date (model.first_payment_lag.getD 0))
  else none

/-- The per-grantor emission step of the blended term schedule (source lines
518-537): one payment event per grantor for one blended period.  Note the
split factor `(payment_split ?? 100) / grantor.length / 100`, which divides
an explicit split percentage by the grantor count. -/
def blendedTermEmission (grantors : List Grantor) (model : TermPaymentModel)
    (term : AgreementTerm) (p : BlendedPeriod) (outside_date : Option DateD) :
    List PaymentEvent :=
  grantors.map (fun g =>
    { payment_source := "Term Model"
      payment_index := p.payment_index
      payment_date := some p.payment_date
      late_payment_date := blendedLateDate model term p
      payment_amount :=
        p.total_payment * ((g.payment_split.getD 100) / (grantors.length : ℚ) / 100)
      payment_period_start := p.min_date
      payment_period_end := p.max_date
      prorata_factor := some (p.date_count / daysInYearD p.payment_date)
      applicable_to_purchase := model.applicable_to_purchase
      refundable := false
      after_outside_date := afterOutside outside_date p.payment_date
      previous_periods := none })

/-- The mapping-and-flattening stage of `calcBlendedPeriodicPaymentsForTerm`
over the list returned by `utils.blendedEscalation` (source lines 507-540).
`utils.blendedEscalation` itself is absent from the sources, so the emission
is verified for an arbitrary blended period list. -/
def calcBlendedEmissions (grantors : List Grantor) (model : TermPaymentModel)
    (term : AgreementTerm) (outside_date : Option DateD)
    (blendedPayments : List BlendedPeriod) : List PaymentEvent :=
  (blendedPayments.map (fun p =>
    blendedTermEmission grantors model term p outside_date)).flatten

/-- The per-grantor emission step of `calcDatePayments` (source lines
771-790): one payment event per grantor for one period of a date-based
model, the grantor's split defaulting to an equal share. -/
def dateModelEmission (grantors : List Grantor) (model : DatePaymentModel)
    (payment_source : String) (periodIdx : Int) (payment_date : DateD)
    (late_payment_date : Option DateD) (payment_amount : ℚ)
    (outside_date : Option DateD) : List PaymentEvent :=
  grantors.map (fun g =>
    { payment_source := payment_source
      payment_index := periodIdx
      payment_date := some payment_date
      late_payment_date := late_payment_date
      payment_amount :=
        payment_amount * ((g.payment_split.getD (100 / (grantors.length : ℚ))) / 100)
      applicable_to_purchase := model.applicable_to_purchase
      refundable := model.refundable
      after_outside_date := afterOutside outside_date payment_date })

/-- The date increment at the bottom of the `calcDatePayments` loop (source
lines 796-808): null for a frequency outside the recognized four, which makes
the loop return what it has emitted so far. -/
def advanceFrequency (frequency : Option String) (payment_date : DateD) :
    Option DateD :=
  if frequency = some "Annually" then some (plusYears payment_date 1)
  else if frequency = some "Semiannually" then some (plusMonths payment_date 6)
  else if frequency = some "Quarterly" then some (plusMonths payment_date 3)
  else if frequency = some "Monthly" then some (plusMonths payment_date 1)
  else none

/-- The late payment date of one date-based period (source lines 763-768). -/
def dateLateDate (model : DatePaymentModel) (period : ℕ) (payment_date : DateD) :
    Option DateD :=
  if period = 1 ∧ jsTruthyInt model.first_payment_lag then
    some (plusDays payment_date (model.first_payment_lag.getD 0))
  else if 1 < period ∧ jsTruthyInt model.subsequent_payment_lag then
    some (plusDays payment_date (model.subsequent_payment_lag.getD 0))
  else none

/-- The `while (payment_date <= payment_date_end)` loop of `calcDatePayments`
(source lines 749-809), fuelled: each pass emits one period's payments and
advances by the model frequency, an unrecognized frequency ending the loop
after the emission.  The fuel bound only caps the iteration count; every
verified execution leaves fuel unused. -/
def dateLoop (doc : Doc) (model : DatePaymentModel) (payment_source : String)
    (payment_date_end : DateD) : ℕ → DateD → ℕ → List PaymentEvent
  | 0, _, _ => []
  | fuel + 1, payment_date, period =>
    if toSerial payment_date ≤ toSerial payment_date_end then
      if (match doc.date_purchased with
          | some dp => decide (toSerial dp < toSerial payment_date)
          | none => false) then []
      else
        let payment_amount :=
          calculateCompoundingGrowth
            (model.payment_amount.getD 0 + (model.increase_amount.getD 0) * ((period : ℚ) - 1))
            ((model.periodic_escalation_rate.getD 0) / 100) period
        let emitted :=
          dateModelEmission doc.grantor model payment_source ((period : Int) - 1)
            payment_date (dateLateDate model period payment_date) payment_amount
            doc.outside_date
        match advanceFrequency model.frequency payment_date with
        | some next => emitted ++ dateLoop doc model payment_source payment_date_end fuel next (period + 1)
        | none => emitted
    else []

/-- Fuel bound for the date-based schedule loop. -/
def dateFuel : ℕ := 10000

/-- The body of the `forEach` of `calcDatePayments` for one date-based model
(source lines 735-809): required-field guard, then the fuelled period loop
from `date_one_time ?? date_begin` up to the earliest of the termination
date, `date_one_time` and `date_end`. -/
def calcDatePaymentsForModel (doc : Doc) (model : DatePaymentModel) :
    List PaymentEvent :=
  if (¬(model.date_begin.isSome ∧ model.date_end.isSome ∧ jsTruthyStr model.frequency) ∧
        model.date_one_time = none) ∨
      ¬jsTruthyNum model.payment_amount ∨ doc.grantor.length = 0 then []
  else
    let payment_source :=
      if model.date_one_time.isSome then "Date Model (One Time)" else "Date Model"
    match jsOr model.date_one_time model.date_begin,
        getEarliestDateTimeFromArray
          [doc.termination.termination_date, model.date_one_time, model.date_end] with
    | some start, some stop => dateLoop doc model payment_source stop dateFuel start 1
    | _, _ => []

/-- `calcDatePayments` (source lines 732-814): the date payment array is
reset and rebuilt model by model; each model's pushes are contiguous, so the
result is the concatenation of the per-model event lists. -/
def calcDatePayments (doc : Doc) : List PaymentEvent :=
  (doc.date_payment_models.map (calcDatePaymentsForModel doc)).flatten

/-- The prior-payment sum of `calcEstimatedPurchasePrice` (source lines
824-840): all payment events flagged `applicable_to_purchase`, across every
term's periodic payments and the date-based payments. -/
def previousApplicablePayments (doc : Doc) : ℚ :=
  (doc.agreement_terms.foldl (fun acc term =>
    acc + match term.periodic_payments with
      | some pp =>
        (pp.filter (fun x => x.applicable_to_purchase)).foldl
          (fun a b => a + b.payment_amount) 0
      | none => 0) 0) +
  (doc.date_payments.filter (fun x => x.applicable_to_purchase)).foldl
    (fun a b => a + b.payment_amount) 0

/-- `calcEstimatedPurchasePrice` (source lines 819-860): returns the new
date-payment array.  Settlement events are pushed only when a (truthy) full
purchase price and a purchase or estimated closing date exist and no
termination date is set; one event per grantor at the purchase/closing date
for the price net of prior applicable payments, split by the grantor's
share. -/
def calcEstimatedPurchasePrice (doc : Doc) : List PaymentEvent :=
  if ¬jsTruthyNum doc.full_purchase_price ∨
      (doc.estimated_closing_date = none ∧ doc.date_purchased = none) then
    doc.date_payments
  else
    let previous_applicable_payments := previousApplicablePayments doc
    if (jsOr doc.date_purchased doc.estimated_closing_date).isSome ∧
        jsTruthyNum doc.full_purchase_price ∧
        doc.termination.termination_date = none then
      doc.date_payments ++ doc.grantor.map (fun g =>
        { payment_source := "Purchase Price Calculation"
          payment_date := jsOr doc.date_purchased doc.estimated_closing_date
          payment_amount :=
            (doc.full_purchase_price.getD 0 - previous_applicable_payments) *
              ((g.payment_split.getD (100 / (doc.grantor.length : ℚ))) / 100)
          applicable_to_purchase := true
          refundable := false })
    else doc.date_payments

/-- The `Object.keys(amendment.termination).length > 0` test of the overlay. -/
def terminationNonempty (t : Termination) : Bool :=
  t.termination_date.isSome || t.has_other_fields

/-- The amendment candidate filter of `processAmendments` (source lines
872-878): same truthy agreement group, at least one amendment-bearing date,
and not the base document itself. -/
def selectAmendments (self : Doc) (allDocs : List Doc) : List Doc :=
  allDocs.filter (fun x =>
    jsTruthyStr self.agreement_group &&
    decide (x.agreement_group = self.agreement_group) &&
    (x.amendment_date.isSome || x.letter_date.isSome || x.deed_date.isSome ||
      x.payment_directive_date.isSome || x.recorded_date.isSome) &&
    decide (x.id ≠ self.id))

/-- The operative sort date of an amendment (source line 882): first truthy of
the five amendment-bearing dates. -/
def amendSortDate (x : Doc) : Option DateD :=
  jsOr x.amendment_date (jsOr x.letter_date (jsOr x.deed_date
    (jsOr x.payment_directive_date x.recorded_date)))

/-- Integer sort key for an amendment, the timestamp of its sort date (every
selected amendment carries at least one of the dates). -/
def amendKey (x : Doc) : Int :=
  (amendSortDate x).elim 0 toSerial

/-- The field-level fold step of the overlay (source lines 895-979): scalar
and collection fields are overwritten when the amendment supplies a truthy
(non-null / non-empty / non-zero) value; `date_payment_models` is additive.
The `amendment_ordinal` annotation written onto the amendment documents and
the `this.amendments` report list do not feed the merged view and are not
modelled. -/
def mergeAmendment (s : Doc) (a : Doc) : Doc :=
  { s with
    effective_date := if a.effective_date.isSome then a.effective_date else s.effective_date
    outside_date := if a.outside_date.isSome then a.outside_date else s.outside_date
    property_description :=
      if 0 < a.property_description.length then a.property_description
      else s.property_description
    jupiter_entity := if jsTruthyStr a.jupiter_entity then a.jupiter_entity else s.jupiter_entity
    grantee := if jsTruthyStr a.grantee then a.grantee else s.grantee
    grantor := if 0 < a.grantor.length then a.grantor else s.grantor
    full_purchase_price :=
      if jsTruthyNum a.full_purchase_price then a.full_purchase_price
      else s.full_purchase_price
    estimated_closing_date :=
      if a.estimated_closing_date.isSome then a.estimated_closing_date
      else s.estimated_closing_date
    date_purchased := if a.date_purchased.isSome then a.date_purchased else s.date_purchased
    date_sold := if a.date_sold.isSome then a.date_sold else s.date_sold
    agreement_terms :=
      if 0 < a.agreement_terms.length then a.agreement_terms else s.agreement_terms
    term_payment_models :=
      if 0 < a.term_payment_models.length then a.term_payment_models
      else s.term_payment_models
    termination := if terminationNonempty a.termination then a.termination else s.termination
    date_payment_models := s.date_payment_models ++ a.date_payment_models
    review_status := if jsTruthyStr a.review_status then a.review_status else s.review_status
    review_status_notes :=
      if jsTruthyStr a.review_status then a.review_status_notes else s.review_status_notes }

/-- `processAmendments` (source lines 866-994): skipped entirely when the base
document lacks an effective date; otherwise the selected amendments are
folded into the base view in ascending sort-date order.  The deprecated
recalculation block (lines 982-990) is fully commented out in the source, so
the overlay touches no payment events. -/
def processAmendments (self : Doc) (allDocs : List Doc) : Doc :=
  if self.effective_date = none then self
  else if (selectAmendments self allDocs).length = 0 then self
  else (sortByKey amendKey (selectAmendments self allDocs)).foldl mergeAmendment self

/-- Sum of the amounts of a list of payment events. -/
def sumAmounts (l : List PaymentEvent) : ℚ :=
  (l.map PaymentEvent.payment_amount).sum

/-- Claim C6: the base periodic payment is the maximum of the five candidate
computations (missing numeric fields treated as 0), then
`(base + cumulative_increase_amount) × cumulative_escalation_rate`; in
particular `payment_per_acre = 10` with 50 controlled acres and no other
payment mode yields exactly 500 before escalation. -/
theorem claim6_periodic_base_payment :
    (∀ (m : TermPaymentModel) (od : Option OpDetails) (esc inc : ℚ) (acres : Option ℚ),
      periodicBasePayment (some m) od esc inc acres =
        (max (m.minimum_payment.getD 0)
          (max ((m.payment_per_mw.getD 0) * ((od.bind OpDetails.mw).getD 0))
            (max (((od.bind OpDetails.inverter_count).getD 0) *
                ((od.bind OpDetails.inverter_rating_mvas).getD 0) *
                (m.payment_per_mva.getD 0))
              (max (m.flat_payment_amount.getD 0)
                ((m.payment_per_acre.getD 0) * (acres.getD 0))))) + inc) * esc) ∧
    periodicBasePayment (some { payment_per_acre := some 10 }) none 1 0 (some 50) = 500 := by
  constructor
  · intro m od esc inc acres
    simp [periodicBasePayment, jsMax_eq_max, max_assoc]
  · norm_num [periodicBasePayment, jsMax]

/-- Claim C8: the payment period end computed by `calcPaymentPeriodEnd` never
exceeds the term-end bound, and whenever the natural period end falls at or
after the term end, the term end itself is returned. -/
theorem claim8_period_end_clamped (s : DateD) (f : Option String) (p : Bool)
    (te e d : DateD) (hn : naturalPeriodEnd s f p te = some e)
    (hd : calcPaymentPeriodEnd s f p te = some d) :
    dle d te ∧ (dle te e → d = te) := by
  unfold calcPaymentPeriodEnd at hd
  rw [hn] at hd
  simp only [Option.some.injEq] at hd
  by_cases h : toSerial te ≤ toSerial e
  · rw [if_pos h] at hd
    subst hd
    exact ⟨le_refl _, fun _ => rfl⟩
  · rw [if_neg h] at hd
    subst hd
    refine ⟨?_, fun hc => absurd hc h⟩
    unfold dle
    omega

/-- Witness for claim C8 at a concrete input: a pro-rated annual period
starting 2024-01-15 with term end 2024-06-30 is clamped to the term end. -/
theorem claim8_period_end_clamped_witness :
    dle ⟨2024, 6, 30⟩ ⟨2024, 6, 30⟩ ∧
      (dle (⟨2024, 6, 30⟩ : DateD) ⟨2024, 12, 31⟩ → (⟨2024, 6, 30⟩ : DateD) = ⟨2024, 6, 30⟩) :=
  claim8_period_end_clamped ⟨2024, 1, 15⟩ (some "Annually") true ⟨2024, 6, 30⟩
    ⟨2024, 12, 31⟩ ⟨2024, 6, 30⟩ (by decide) (by decide)

/-- Claim C9: payment model resolution returns null on a null or empty model
list; with a (truthy) `payment_model ?? term_type` name it returns the model
found by matching `model_type` (and any model so returned does match the
name); and a term with neither name resolves to the sole model of the
agreement. -/
theorem claim9_term_payment_model (term : AgreementTerm)
    (l : List TermPaymentModel) (m : TermPaymentModel) :
    (termPaymentModel term none = none) ∧
    (termPaymentModel term (some []) = none) ∧
    (∀ m2, l ≠ [] → jsTruthyStr (jsOr term.payment_model term.term_type) = true →
      l.find? (fun x => decide (x.model_type = jsOr term.payment_model term.term_type)) =
        some m2 →
      termPaymentModel term (some l) = some m2 ∧
        m2.model_type = jsOr term.payment_model term.term_type) ∧
    (term.payment_model = none → term.term_type = none →
      termPaymentModel term (some [m]) = some m) := by
  refine ⟨rfl, rfl, ?_, ?_⟩
  · intro m2 hne htr hfind
    have hlen : ¬l.length = 0 := by
      simpa [List.length_eq_zero] using hne
    constructor
    · simp only [termPaymentModel, if_neg hlen, htr, if_pos]
      exact hfind
    · have := List.find?_some hfind
      simpa using this
  · intro h1 h2
    simp [termPaymentModel, jsOr, h1, h2, jsTruthyStr]

/-- Witness for claim C9 at concrete inputs: a named term resolves to the
matching model, and an unnamed term resolves to the sole model. -/
theorem claim9_term_payment_model_witness :
    (termPaymentModel { term_type := some "Operations" } none = none) ∧
    (termPaymentModel { payment_model := some "Operations" }
        (some [{ model_type := some "Construction" }, { model_type := some "Operations" }]) =
          some { model_type := some "Operations" } ∧
      ({ model_type := some "Operations" } : TermPaymentModel).model_type =
        jsOr (some "Operations") none) ∧
    (termPaymentModel ({} : AgreementTerm)
        (some [{ model_type := some "Construction" }]) =
      some { model_type := some "Construction" }) := by
  refine ⟨(claim9_term_payment_model { term_type := some "Operations" } [] {}).1, ?_, ?_⟩
  · exact (claim9_term_payment_model { payment_model := some "Operations" }
      [{ model_type := some "Construction" }, { model_type := some "Operations" }] {}).2.2.1
      { model_type := some "Operations" } (by decide) (by decide) (by decide)
  · exact (claim9_term_payment_model {} [] { model_type := some "Construction" }).2.2.2
      rfl rfl

/-- Claim C5: purchase price settlement emits nothing when the purchase price
is missing, a termination date is set, or neither a purchase nor an estimated
closing date exists; otherwise it appends exactly one settlement event per
grantor, dated at the purchase/closing date, with amount
`(full_purchase_price − prior applicable payments) × grantor split`, flagged
applicable to purchase and not refundable. -/
theorem claim5_purchase_settlement (doc : Doc) :
    ((jsTruthyNum doc.full_purchase_price = false ∨
      doc.termination.termination_date ≠ none ∨
      (doc.date_purchased = none ∧ doc.estimated_closing_date = none)) →
      calcEstimatedPurchasePrice doc = doc.date_payments) ∧
    (∀ D : DateD, jsTruthyNum doc.full_purchase_price = true →
      jsOr doc.date_purchased doc.estimated_closing_date = some D →
      doc.termination.termination_date = none →
      calcEstimatedPurchasePrice doc =
        doc.date_payments ++ doc.grantor.map (fun g =>
          { payment_source := "Purchase Price Calculation"
            payment_date := some D
            payment_amount :=
              (doc.full_purchase_price.getD 0 - previousApplicablePayments doc) *
                ((g.payment_split.getD (100 / (doc.grantor.length : ℚ))) / 100)
            applicable_to_purchase := true
            refundable := false })) := by
  constructor
  · intro h
    unfold calcEstimatedPurchasePrice
    rcases h with h | h | h
    · rw [if_pos]
      left
      simp [h]
    · by_cases h1 : ¬jsTruthyNum doc.full_purchase_price = true ∨
        (doc.estimated_closing_date = none ∧ doc.date_purchased = none)
      · rw [if_pos h1]
      · rw [if_neg h1, if_neg]
        intro hc
        exact h hc.2.2
    · rw [if_pos]
      right
      exact ⟨h.2, h.1⟩
  · intro D h1 h2 h3
    unfold calcEstimatedPurchasePrice
    have hsome : (jsOr doc.date_purchased doc.estimated_closing_date).isSome = true := by
      rw [h2]; rfl
    have hng : ¬(¬jsTruthyNum doc.full_purchase_price = true ∨
        (doc.estimated_closing_date = none ∧ doc.date_purchased = none)) := by
      rintro (hc | hc)
      · exact hc h1
      · rw [hc.2, hc.1] at h2
        exact Option.noConfusion (h2 ▸ rfl : (none : Option DateD) = some D)
    rw [if_neg hng, if_pos ⟨hsome, h1, h3⟩, h2]

/-- Witness for claim C5 at the concrete input from the specification: full
purchase price 100000, a prior applicable payment of 20000 and one grantor
with the default split yield a settlement event of amount 80000. -/
theorem claim5_purchase_settlement_witness :
    (calcEstimatedPurchasePrice
        { grantor := [{}], full_purchase_price := some 100000,
          date_purchased := some ⟨2025, 3, 1⟩,
          date_payments := [{ payment_amount := 20000, applicable_to_purchase := true }] } =
      [{ payment_amount := 20000, applicable_to_purchase := true }] ++
        [{ payment_source := "Purchase Price Calculation"
           payment_date := some ⟨2025, 3, 1⟩
           payment_amount := 80000
           applicable_to_purchase := true
           refundable := false }]) := by
  have h := (claim5_purchase_settlement
    { grantor := [{}], full_purchase_price := some 100000,
      date_purchased := some ⟨2025, 3, 1⟩,
      date_payments := [{ payment_amount := 20000, applicable_to_purchase := true }] }).2
    ⟨2025, 3, 1⟩ (by decide) (by decide) (by decide)
  rw [h]
  simp [previousApplicablePayments]
  norm_num

/-- Sum of a split-scaled payment over the grantors, factored over the sum of
the split percentages. -/
theorem sum_map_split (gs : List Grantor) (c d : ℚ) :
    (gs.map (fun g => c * ((g.payment_split.getD d) / 100))).sum =
      c * (gs.map (fun g => g.payment_split.getD d)).sum / 100 := by
  induction gs with
  | nil => simp
  | cons g gs ih =>
    simp only [List.map_cons, List.sum_cons, ih]
    ring

/-- With no splits given, every grantor takes the default share. -/
theorem sum_splits_none (gs : List Grantor) (d : ℚ)
    (h : ∀ g ∈ gs, g.payment_split = none) :
    (gs.map (fun g => g.payment_split.getD d)).sum = gs.length * d := by
  induction gs with
  | nil => simp
  | cons g gs ih =>
    have hg := h g (by simp)
    rw [List.map_cons, List.sum_cons, hg, ih (fun x hx => h x (by simp [hx]))]
    simp [Option.getD]
    ring

/-- With explicit splits everywhere, the default share never enters the sum. -/
theorem sum_splits_some (gs : List Grantor) (d : ℚ)
    (h : ∀ g ∈ gs, (g.payment_split).isSome = true) :
    (gs.map (fun g => g.payment_split.getD d)).sum =
      (gs.map (fun g => g.payment_split.getD 0)).sum := by
  induction gs with
  | nil => simp
  | cons g gs ih =>
    obtain ⟨s, hs⟩ := Option.isSome_iff_exists.mp (h g (by simp))
    rw [List.map_cons, List.sum_cons, List.map_cons, List.sum_cons, hs,
      ih (fun x hx => h x (by simp [hx]))]
    rfl

/-- A constant payment over the grantors sums to the grantor count times it. -/
theorem sum_map_constant (gs : List Grantor) (c : ℚ) :
    (gs.map (fun _ => c)).sum = gs.length * c := by
  induction gs with
  | nil => simp
  | cons g gs ih =>
    simp only [List.map_cons, List.sum_cons, ih, List.length_cons]
    push_cast
    ring

/-- Counterexample to claim C3: a blended-period emission for two grantors
with explicit splits of 60 and 40 (summing to 100) and a period total of 1000
emits shares summing to 500, not to the period's total payment. -/
theorem claim3_payee_shares_cex :
    sumAmounts (blendedTermEmission
        [{ payment_split := some 60 }, { payment_split := some 40 }] {} {}
        { total_payment := 1000 } none) ≠ 1000 ∧
    (([{ payment_split := some 60 }, { payment_split := some 40 }] : List Grantor).map
        (fun g => g.payment_split.getD 0)).sum = 100 := by
  constructor
  · norm_num [sumAmounts, blendedTermEmission, daysInYearD, isLeap]
  · norm_num

/-- Claim C3, amended: for each payment instant the payee shares sum to the
instant's total payment amount for the standard term-based and the date-based
emissions, both with explicit splits summing to 100 and with absent splits;
for the blended emission this holds with absent splits (with explicit splits
the blended generator divides the percentages by the grantor count). -/
theorem claim3_payee_shares (gs : List Grantor) (model : TermPaymentModel)
    (term : AgreementTerm) (dmodel : DatePaymentModel) (p : BlendedPeriod)
    (pp rate idx prevp pf amount : ℚ) (i : ℕ) (pidx : Int) (pd pps ppe : DateD)
    (late od : Option DateD) (psrc : String) :
    ((∀ g ∈ gs, (g.payment_split).isSome = true) →
      (gs.map (fun g => g.payment_split.getD 0)).sum = 100 →
      sumAmounts (standardTermEmission gs model pp rate idx prevp i pd late pps ppe pf od) =
        calculateCompoundingGrowth (pp + model.increase_amount.getD 0 * (i : ℚ))
          (rate / 100) (Int.toNat ⌊(prevp + (i : ℚ)) / idx⌋) * pf) ∧
    ((∀ g ∈ gs, g.payment_split = none) → gs ≠ [] →
      sumAmounts (standardTermEmission gs model pp rate idx prevp i pd late pps ppe pf od) =
        calculateCompoundingGrowth (pp + model.increase_amount.getD 0 * (i : ℚ))
          (rate / 100) (Int.toNat ⌊(prevp + (i : ℚ)) / idx⌋) * pf) ∧
    ((∀ g ∈ gs, (g.payment_split).isSome = true) →
      (gs.map (fun g => g.payment_split.getD 0)).sum = 100 →
      sumAmounts (dateModelEmission gs dmodel psrc pidx pd late amount od) = amount) ∧
    ((∀ g ∈ gs, g.payment_split = none) → gs ≠ [] →
      sumAmounts (dateModelEmission gs dmodel psrc pidx pd late amount od) = amount) ∧
    ((∀ g ∈ gs, g.payment_split = none) → gs ≠ [] →
      sumAmounts (blendedTermEmission gs model term p od) = p.total_payment) := by
  have hlen : gs ≠ [] → ((gs.length : ℚ) ≠ 0) := by
    intro h hc
    exact h (List.length_eq_zero.mp (by exact_mod_cast hc))
  refine ⟨?_, ?_, ?_, ?_, ?_⟩
  · intro hsome hsum
    simp only [sumAmounts, standardTermEmission, List.map_map, Function.comp_def]
    rw [List.map_congr_left (fun g _ => by
      show calculateCompoundingGrowth _ _ _ * pf =
        (fun g : Grantor => calculateCompoundingGrowth
          (pp + model.increase_amount.getD 0 * (i : ℚ)) (rate / 100)
          (Int.toNat ⌊(prevp + (i : ℚ)) / idx⌋) * pf *
          (g.payment_split.getD (100 / (gs.length : ℚ)) / 100)) g
      simp only [calculateCompoundingGrowth]
      ring)]
    rw [sum_map_split, sum_splits_some gs _ hsome, hsum]
    ring
  · intro hnone hne
    simp only [sumAmounts, standardTermEmission, List.map_map, Function.comp_def]
    rw [List.map_congr_left (fun g _ => by
      show calculateCompoundingGrowth _ _ _ * pf =
        (fun g : Grantor => calculateCompoundingGrowth
          (pp + model.increase_amount.getD 0 * (i : ℚ)) (rate / 100)
          (Int.toNat ⌊(prevp + (i : ℚ)) / idx⌋) * pf *
          (g.payment_split.getD (100 / (gs.length : ℚ)) / 100)) g
      simp only [calculateCompoundingGrowth]
      ring)]
    rw [sum_map_split, sum_splits_none gs _ hnone]
    have h0 := hlen hne
    field_simp
  · intro hsome hsum
    simp only [sumAmounts, dateModelEmission, List.map_map, Function.comp_def]
    rw [sum_map_split, sum_splits_some gs _ hsome, hsum]
    ring
  · intro hnone hne
    simp only [sumAmounts, dateModelEmission, List.map_map, Function.comp_def]
    rw [sum_map_split, sum_splits_none gs _ hnone]
    have h0 := hlen hne
    field_simp
  · intro hnone hne
    simp only [sumAmounts, blendedTermEmission, List.map_map, Function.comp_def]
    rw [List.map_congr_left (fun g hg => by
      show p.total_payment * (g.payment_split.getD 100 / (gs.length : ℚ) / 100) =
        (fun _ : Grantor => p.total_payment * (100 / (gs.length : ℚ) / 100)) g
      rw [hnone g hg]
      rfl)]
    rw [sum_map_constant]
    have h0 := hlen hne
    field_simp
    ring

/-- Witness for claim C3 at concrete inputs: shares sum to the instant total
for the standard and date-based emissions with explicit 60/40 splits and with
absent splits, and for the blended emission with absent splits. -/
theorem claim3_payee_shares_witness :
    sumAmounts (standardTermEmission
        [{ payment_split := some 60 }, { payment_split := some 40 }] {} 1000 0 1 0 0
        ⟨2024, 1, 1⟩ none ⟨2024, 1, 1⟩ ⟨2024, 12, 31⟩ 1 none) = 1000 ∧
    sumAmounts (standardTermEmission [{}, {}] {} 1000 0 1 0 0
        ⟨2024, 1, 1⟩ none ⟨2024, 1, 1⟩ ⟨2024, 12, 31⟩ 1 none) = 1000 ∧
    sumAmounts (dateModelEmission
        [{ payment_split := some 60 }, { payment_split := some 40 }] {} "Date Model" 0
        ⟨2024, 1, 1⟩ none 700 none) = 700 ∧
    sumAmounts (dateModelEmission [{}, {}] {} "Date Model" 0
        ⟨2024, 1, 1⟩ none 700 none) = 700 ∧
    sumAmounts (blendedTermEmission [{}, {}] {} {} { total_payment := 1000 } none) = 1000 := by
  refine ⟨?_, ?_, ?_, ?_, ?_⟩
  · exact ((claim3_payee_shares
      [{ payment_split := some 60 }, { payment_split := some 40 }] {} {} {} {}
      1000 0 1 0 1 700 0 0 ⟨2024, 1, 1⟩ ⟨2024, 1, 1⟩ ⟨2024, 12, 31⟩ none none
      "Date Model").1 (by decide) (by norm_num)).trans
      (by norm_num [calculateCompoundingGrowth])
  · exact ((claim3_payee_shares [{}, {}] {} {} {} {}
      1000 0 1 0 1 700 0 0 ⟨2024, 1, 1⟩ ⟨2024, 1, 1⟩ ⟨2024, 12, 31⟩ none none
      "Date Model").2.1 (by decide) (by decide)).trans
      (by norm_num [calculateCompoundingGrowth])
  · exact (claim3_payee_shares
      [{ payment_split := some 60 }, { payment_split := some 40 }] {} {} {} {}
      1000 0 1 0 1 700 0 0 ⟨2024, 1, 1⟩ ⟨2024, 1, 1⟩ ⟨2024, 12, 31⟩ none none
      "Date Model").2.2.1 (by decide) (by norm_num)
  · exact (claim3_payee_shares [{}, {}] {} {} {} {}
      1000 0 1 0 1 700 0 0 ⟨2024, 1, 1⟩ ⟨2024, 1, 1⟩ ⟨2024, 12, 31⟩ none none
      "Date Model").2.2.2.1 (by decide) (by decide)
  · exact ((claim3_payee_shares [{}, {}] {} {} {} { total_payment := 1000 }
      1000 0 1 0 1 700 0 0 ⟨2024, 1, 1⟩ ⟨2024, 1, 1⟩ ⟨2024, 12, 31⟩ none none
      "Date Model").2.2.2.2 (by decide) (by decide)).trans rfl

/-- The date-based schedule loop never reads the document's model list, so
replacing that list leaves it unchanged. -/
theorem dateLoop_models (doc : Doc) (X : List DatePaymentModel)
    (model : DatePaymentModel) (psrc : String) (pend : DateD) :
    ∀ (fuel : ℕ) (pd : DateD) (period : ℕ),
      dateLoop { doc with date_payment_models := X } model psrc pend fuel pd period =
        dateLoop doc model psrc pend fuel pd period := by
  intro fuel
  induction fuel with
  | zero => intro pd period; rfl
  | succ n ih =>
    intro pd period
    simp only [dateLoop, ih]

/-- One date-based model's schedule never reads the document's model list. -/
theorem calcForModel_models (doc : Doc) (X : List DatePaymentModel)
    (m : DatePaymentModel) :
    calcDatePaymentsForModel { doc with date_payment_models := X } m =
      calcDatePaymentsForModel doc m := by
  unfold calcDatePaymentsForModel
  simp only [dateLoop_models]

/-- An unrecognized frequency makes the loop's date increment null. -/
theorem advanceFrequency_none (f : Option String) (pd : DateD)
    (h1 : f ≠ some "Annually") (h2 : f ≠ some "Semiannually")
    (h3 : f ≠ some "Quarterly") (h4 : f ≠ some "Monthly") :
    advanceFrequency f pd = none := by
  simp [advanceFrequency, h1, h2, h3, h4]

/-- Claim C4: schedule generation for a date-based model whose frequency is
not one of the four recognized values terminates after its first pass — the
loop's result no longer depends on the fuel bound — returning at most the
first period's per-grantor events; and the full date-based generation is the
concatenation of independent per-model generations, so the other models on
the agreement are unaffected. -/
theorem claim4_unrecognized_frequency :
    (∀ (doc : Doc) (m : DatePaymentModel) (ms : List DatePaymentModel),
      calcDatePayments { doc with date_payment_models := m :: ms } =
        calcDatePaymentsForModel doc m ++
          calcDatePayments { doc with date_payment_models := ms }) ∧
    (∀ (doc : Doc) (model : DatePaymentModel) (psrc : String) (pend pd : DateD)
        (fuel period : ℕ),
      model.frequency ≠ some "Annually" → model.frequency ≠ some "Semiannually" →
      model.frequency ≠ some "Quarterly" → model.frequency ≠ some "Monthly" →
      1 ≤ fuel →
      dateLoop doc model psrc pend fuel pd period =
        dateLoop doc model psrc pend 1 pd period) ∧
    (∀ (doc : Doc) (model : DatePaymentModel),
      model.frequency ≠ some "Annually" → model.frequency ≠ some "Semiannually" →
      model.frequency ≠ some "Quarterly" → model.frequency ≠ some "Monthly" →
      (∀ ev ∈ calcDatePaymentsForModel doc model, ev.payment_index = 0) ∧
      (calcDatePaymentsForModel doc model).length ≤ doc.grantor.length) := by
  refine ⟨?_, ?_, ?_⟩
  · intro doc m ms
    have hmap : ∀ X : List DatePaymentModel,
        List.map (calcDatePaymentsForModel { doc with date_payment_models := X }) ms =
          List.map (calcDatePaymentsForModel doc) ms :=
      fun X => List.map_congr_left (fun x _ => calcForModel_models doc X x)
    simp only [calcDatePayments, List.map_cons, List.flatten_cons, calcForModel_models, hmap]
  · intro doc model psrc pend pd fuel period h1 h2 h3 h4 hf
    obtain ⟨k, rfl⟩ : ∃ k, fuel = k + 1 := ⟨fuel - 1, by omega⟩
    have e1 : (1 : ℕ) = 0 + 1 := rfl
    rw [e1]
    simp only [dateLoop, advanceFrequency_none model.frequency pd h1 h2 h3 h4]
  · intro doc model h1 h2 h3 h4
    unfold calcDatePaymentsForModel
    by_cases hg : (¬(model.date_begin.isSome ∧ model.date_end.isSome ∧
        jsTruthyStr model.frequency) ∧ model.date_one_time = none) ∨
        ¬jsTruthyNum model.payment_amount ∨ doc.grantor.length = 0
    · rw [if_pos hg]
      exact ⟨fun ev h => absurd h (List.not_mem_nil ev), Nat.zero_le _⟩
    · rw [if_neg hg]
      rcases hj : jsOr model.date_one_time model.date_begin with _ | s
      · exact ⟨fun ev h => absurd h (List.not_mem_nil ev), Nat.zero_le _⟩
      · rcases he : getEarliestDateTimeFromArray
            [doc.termination.termination_date, model.date_one_time, model.date_end] with _ | e
        · exact ⟨fun ev h => absurd h (List.not_mem_nil ev), Nat.zero_le _⟩
        · have efuel : dateFuel = 9999 + 1 := rfl
          rw [efuel]
          simp only [dateLoop,
            advanceFrequency_none model.frequency s h1 h2 h3 h4]
          split_ifs with hc1 hc2
          all_goals
            first
              | exact ⟨fun ev h => absurd h (List.not_mem_nil ev), Nat.zero_le _⟩
              | exact ⟨fun ev hev => by
                  simp only [dateModelEmission, List.mem_map] at hev
                  obtain ⟨g, _, rfl⟩ := hev
                  rfl,
                by simp [dateModelEmission]⟩

/-- A one-grantor document used to witness claim C4. -/
def docC4 : Doc := { grantor := [{}] }

/-- A date-based model with an unrecognized "Weekly" frequency, used to
witness claim C4. -/
def modelC4 : DatePaymentModel :=
  { date_begin := some ⟨2024, 1, 1⟩, date_end := some ⟨2030, 1, 1⟩,
    frequency := some "Weekly", payment_amount := some 100 }

/-- Witness for claim C4 at a concrete input: a "Weekly" date-based model on a
one-grantor document. -/
theorem claim4_unrecognized_frequency_witness :
    (calcDatePayments { docC4 with date_payment_models := modelC4 :: [] } =
      calcDatePaymentsForModel docC4 modelC4 ++
        calcDatePayments { docC4 with date_payment_models := [] }) ∧
    (dateLoop docC4 modelC4 "Date Model" ⟨2030, 1, 1⟩ 5 ⟨2024, 1, 1⟩ 1 =
      dateLoop docC4 modelC4 "Date Model" ⟨2030, 1, 1⟩ 1 ⟨2024, 1, 1⟩ 1) ∧
    (∀ ev ∈ calcDatePaymentsForModel docC4 modelC4, ev.payment_index = 0) ∧
    (calcDatePaymentsForModel docC4 modelC4).length ≤ docC4.grantor.length := by
  refine ⟨claim4_unrecognized_frequency.1 docC4 modelC4 [], ?_, ?_, ?_⟩
  · exact claim4_unrecognized_frequency.2.1 docC4 modelC4 "Date Model" ⟨2030, 1, 1⟩
      ⟨2024, 1, 1⟩ 5 1 (by decide) (by decide) (by decide) (by decide) (by decide)
  · exact (claim4_unrecognized_frequency.2.2 docC4 modelC4
      (by decide) (by decide) (by decide) (by decide)).1
  · exact (claim4_unrecognized_frequency.2.2 docC4 modelC4
      (by decide) (by decide) (by decide) (by decide)).2

/-- A resolved term keeps its source `term_type`. -/
theorem resolveTerm_term_type (all : List AgreementTerm) (eff : Option DateD)
    (op : OpDetails) (tn : Termination) (prev : Option AgreementTerm)
    (t : AgreementTerm) : (resolveTerm all eff op tn prev t).term_type = t.term_type := rfl

/-- A resolved term keeps its source `term_ordinal`. -/
theorem resolveTerm_term_ordinal (all : List AgreementTerm) (eff : Option DateD)
    (op : OpDetails) (tn : Termination) (prev : Option AgreementTerm)
    (t : AgreementTerm) :
    (resolveTerm all eff op tn prev t).term_ordinal = t.term_ordinal := rfl

/-- A resolved term keeps its source `payment_model`. -/
theorem resolveTerm_payment_model (all : List AgreementTerm) (eff : Option DateD)
    (op : OpDetails) (tn : Termination) (prev : Option AgreementTerm)
    (t : AgreementTerm) :
    (resolveTerm all eff op tn prev t).payment_model = t.payment_model := rfl

/-- A resolved term keeps its source `extension` flag. -/
theorem resolveTerm_extension (all : List AgreementTerm) (eff : Option DateD)
    (op : OpDetails) (tn : Termination) (prev : Option AgreementTerm)
    (t : AgreementTerm) : (resolveTerm all eff op tn prev t).extension = t.extension := rfl

/-- The start date a resolved term receives. -/
theorem resolveTerm_start_date (all : List AgreementTerm) (eff : Option DateD)
    (op : OpDetails) (tn : Termination) (prev : Option AgreementTerm)
    (t : AgreementTerm) :
    (resolveTerm all eff op tn prev t).start_date = resolveStartDate eff op prev t := rfl

/-- The end date a resolved term receives. -/
theorem resolveTerm_end_date (all : List AgreementTerm) (eff : Option DateD)
    (op : OpDetails) (tn : Termination) (prev : Option AgreementTerm)
    (t : AgreementTerm) :
    (resolveTerm all eff op tn prev t).end_date =
      resolveEndDate op t (resolveStartDate eff op prev t)
        (resolveEndDate0 tn t (resolveStartDate eff op prev t)) := rfl

/-- The head of a resolved term list is the first input term resolved with no
predecessor. -/
theorem resolveTerms_zero (all : List AgreementTerm) (eff : Option DateD)
    (op : OpDetails) (tn : Termination) (prev : Option AgreementTerm)
    (l : List AgreementTerm) :
    (resolveTerms all eff op tn prev l)[0]? =
      (l[0]?).map (resolveTerm all eff op tn prev) := by
  cases l <;> simp [resolveTerms]

/-- Each later entry of a resolved term list is the corresponding input term
resolved with the previous resolved term as predecessor. -/
theorem resolveTerms_succ (all : List AgreementTerm) (eff : Option DateD)
    (op : OpDetails) (tn : Termination) :
    ∀ (l : List AgreementTerm) (prev : Option AgreementTerm) (i : ℕ),
      (resolveTerms all eff op tn prev l)[i + 1]? =
        (resolveTerms all eff op tn prev l)[i]?.bind (fun u =>
          (l[i + 1]?).map (resolveTerm all eff op tn (some u))) := by
  intro l
  induction l with
  | nil => intro prev i; simp [resolveTerms]
  | cons t rest ih =>
    intro prev i
    cases i with
    | zero =>
      simp only [resolveTerms, List.getElem?_cons_succ, List.getElem?_cons_zero,
        Option.some_bind]
      exact resolveTerms_zero all eff op tn _ rest
    | succ j =>
      simp only [resolveTerms, List.getElem?_cons_succ]
      exact ih (some _) j

/-- With a resolvable commencement date, term date resolution is the resolver
run over the ordinal-sorted term list. -/
theorem calcTD_eq (terms : List AgreementTerm) (eff : Option DateD)
    (op : OpDetails) (tn : Termination)
    (hg : ¬(eff = none ∧ op.commencement_date = none)) :
    calcAgreementTermDates terms eff op tn =
      resolveTerms (sortByOrdinal terms) eff op tn none (sortByOrdinal terms) := by
  unfold calcAgreementTermDates
  rw [if_neg hg]

/-- Every resolved term of `calcAgreementTermDates` arises from `resolveTerm`
applied to the matching sorted input term, with no predecessor at index 0 and
the previous output term after that. -/
theorem calcTD_get_form (terms : List AgreementTerm) (eff : Option DateD)
    (op : OpDetails) (tn : Termination)
    (hg : ¬(eff = none ∧ op.commencement_date = none)) (i : ℕ) (v : AgreementTerm)
    (hv : (calcAgreementTermDates terms eff op tn)[i]? = some v) :
    ∃ t, (sortByOrdinal terms)[i]? = some t ∧
      ((i = 0 ∧ v = resolveTerm (sortByOrdinal terms) eff op tn none t) ∨
       (∃ j u, i = j + 1 ∧ (calcAgreementTermDates terms eff op tn)[j]? = some u ∧
         v = resolveTerm (sortByOrdinal terms) eff op tn (some u) t)) := by
  cases i with
  | zero =>
    rw [calcTD_eq terms eff op tn hg, resolveTerms_zero] at hv
    obtain ⟨t, ht, hft⟩ := Option.map_eq_some'.mp hv
    exact ⟨t, ht, Or.inl ⟨rfl, hft.symm⟩⟩
  | succ j =>
    rw [calcTD_eq terms eff op tn hg, resolveTerms_succ] at hv
    obtain ⟨u, hu, hrest⟩ := Option.bind_eq_some.mp hv
    obtain ⟨t, ht, hft⟩ := Option.map_eq_some'.mp hrest
    refine ⟨t, ht, Or.inr ⟨j, u, rfl, ?_, hft.symm⟩⟩
    rw [calcTD_eq terms eff op tn hg]
    exact hu

/-- The start date of a resolved term is always set when the agreement has a
resolvable commencement date and the predecessor (if any) has an end date. -/
theorem resolveStartDate_isSome (eff : Option DateD) (op : OpDetails)
    (prev : Option AgreementTerm) (term : AgreementTerm)
    (hg : ¬(eff = none ∧ op.commencement_date = none))
    (hprev : ∀ p, prev = some p → p.end_date.isSome = true) :
    (resolveStartDate eff op prev term).isSome = true := by
  unfold resolveStartDate
  split_ifs with h1 h2
  · exact h1.2.2
  · exact h2.2.2
  · cases prev with
    | none =>
      cases hc : op.commencement_date with
      | some c => simp [jsOr, hc]
      | none =>
        cases he : eff with
        | some e => simp [jsOr, hc, he]
        | none => exact absurd ⟨he, hc⟩ hg
    | some p =>
      obtain ⟨e, hpe⟩ := Option.isSome_iff_exists.mp (hprev p rfl)
      simp [jsOr, hpe]

/-- The capped pre-override end date is set whenever the start date is. -/
theorem resolveEndDate0_isSome (tn : Termination) (term : AgreementTerm)
    (sd : Option DateD) (hs : sd.isSome = true) :
    (resolveEndDate0 tn term sd).isSome = true := by
  obtain ⟨s, rfl⟩ := Option.isSome_iff_exists.mp hs
  unfold resolveEndDate0
  cases htd : tn.termination_date <;> simp [getEarliestDateTime, htd]

/-- The operational overrides never clear a set end date. -/
theorem resolveEndDate_isSome (op : OpDetails) (term : AgreementTerm)
    (sd end0 : Option DateD) (he : end0.isSome = true) :
    (resolveEndDate op term sd end0).isSome = true := by
  unfold resolveEndDate
  split_ifs with h1 h2
  · split
    · split_ifs <;> simp_all
    · exact he
  · split
    · split_ifs <;> simp_all
    · exact he
  · exact he

/-- Every resolved term of `calcAgreementTermDates` has both of its dates
set. -/
theorem calcTD_isSome (terms : List AgreementTerm) (eff : Option DateD)
    (op : OpDetails) (tn : Termination)
    (hg : ¬(eff = none ∧ op.commencement_date = none)) :
    ∀ (i : ℕ) (v : AgreementTerm),
      (calcAgreementTermDates terms eff op tn)[i]? = some v →
      v.start_date.isSome = true ∧ v.end_date.isSome = true := by
  intro i
  induction i with
  | zero =>
    intro v hv
    obtain ⟨t, ht, hform⟩ := calcTD_get_form terms eff op tn hg 0 v hv
    rcases hform with ⟨_, rfl⟩ | ⟨j, u, hj, _, _⟩
    · have hs : (resolveTerm (sortByOrdinal terms) eff op tn none t).start_date.isSome = true := by
        rw [resolveTerm_start_date]
        exact resolveStartDate_isSome eff op none t hg (fun p hp => Option.noConfusion hp)
      refine ⟨hs, ?_⟩
      rw [resolveTerm_end_date]
      exact resolveEndDate_isSome _ _ _ _ (resolveEndDate0_isSome _ _ _
        (by rw [resolveTerm_start_date] at hs; exact hs))
    · exact absurd hj (by omega)
  | succ j ih =>
    intro v hv
    obtain ⟨t, ht, hform⟩ := calcTD_get_form terms eff op tn hg (j + 1) v hv
    rcases hform with ⟨hj, _⟩ | ⟨j2, u, hj2, hu, rfl⟩
    · exact absurd hj (by omega)
    · have hj2' : j2 = j := by omega
      subst hj2'
      have hue := (ih u hu).2
      have hs : (resolveTerm (sortByOrdinal terms) eff op tn (some u) t).start_date.isSome = true := by
        rw [resolveTerm_start_date]
        exact resolveStartDate_isSome eff op (some u) t hg
          (fun p hp => by cases hp; exact hue)
      refine ⟨hs, ?_⟩
      rw [resolveTerm_end_date]
      exact resolveEndDate_isSome _ _ _ _ (resolveEndDate0_isSome _ _ _
        (by rw [resolveTerm_start_date] at hs; exact hs))

/-- Claim C1: with a resolvable commencement date, every resolved term's
start date follows the precedence: a non-extension "Construction" or
"Operations" term adopts the matching provided operational commencement
date; otherwise the first term starts at the agreement's
commencement/effective date and each later term starts the day after the
previous term's end date. -/
theorem claim1_start_date_precedence (terms : List AgreementTerm)
    (eff : Option DateD) (op : OpDetails) (tn : Termination) (i : ℕ)
    (v : AgreementTerm) (hg : ¬(eff = none ∧ op.commencement_date = none))
    (hv : (calcAgreementTermDates terms eff op tn)[i]? = some v) :
    v.start_date =
      if v.term_type = some "Construction" ∧ v.extension = false ∧
          op.construction_commencement.isSome = true then
        op.construction_commencement
      else if v.term_type = some "Operations" ∧ v.extension = false ∧
          op.operations_commencement.isSome = true then
        op.operations_commencement
      else
        (match i with
        | 0 => jsOr op.commencement_date eff
        | j + 1 =>
          ((calcAgreementTermDates terms eff op tn)[j]?.bind AgreementTerm.end_date).map
            (fun d => plusDays d 1)) := by
  obtain ⟨t, ht, hform⟩ := calcTD_get_form terms eff op tn hg i v hv
  rcases hform with ⟨hi, rfl⟩ | ⟨j, u, hi, hu, rfl⟩
  · subst hi
    simp only [resolveTerm_start_date, resolveTerm_term_type, resolveTerm_extension]
    unfold resolveStartDate
    simp [jsOr]
  · subst hi
    obtain ⟨e, he⟩ := Option.isSome_iff_exists.mp
      (calcTD_isSome terms eff op tn hg j u hu).2
    simp only [resolveTerm_start_date, resolveTerm_term_type, resolveTerm_extension]
    unfold resolveStartDate
    rw [hu]
    simp [jsOr, he]

/-- A single-ordinal agreement term used to witness claims about the term
date resolver. -/
def termC1 : AgreementTerm := { term_ordinal := 1 }

/-- Witness for claim C1 at a concrete input: a lone term with no overrides
starts at the agreement's effective date. -/
theorem claim1_start_date_precedence_witness :
    (resolveTerm (sortByOrdinal [termC1]) (some ⟨2024, 1, 1⟩) {} {} none termC1).start_date =
      some ⟨2024, 1, 1⟩ :=
  (claim1_start_date_precedence [termC1] (some ⟨2024, 1, 1⟩) {} {} 0
    (resolveTerm (sortByOrdinal [termC1]) (some ⟨2024, 1, 1⟩) {} {} none termC1)
    (by simp) rfl).trans (by decide)

/-- Claim C7: every resolved term's cumulative escalation rate is the fold of
`× (1 + escalation_rate/100)` and its cumulative increase amount the fold of
`+ increase_amount` (missing values treated as 0), in ordinal order, over
exactly the sorted terms sharing the term's `payment_model` with ordinal at
most its own. -/
theorem claim7_cumulative_cohort (terms : List AgreementTerm)
    (eff : Option DateD) (op : OpDetails) (tn : Termination) (i : ℕ)
    (v : AgreementTerm) (hg : ¬(eff = none ∧ op.commencement_date = none))
    (hv : (calcAgreementTermDates terms eff op tn)[i]? = some v) :
    v.cumulative_increase_amount =
      some (((sortByOrdinal terms).filter (fun x =>
          decide (x.term_ordinal ≤ v.term_ordinal) &&
          decide (x.payment_model = v.payment_model))).foldl
        (fun acc t => acc + t.increase_amount.getD 0) 0) ∧
    v.cumulative_escalation_rate =
      some (((sortByOrdinal terms).filter (fun x =>
          decide (x.term_ordinal ≤ v.term_ordinal) &&
          decide (x.payment_model = v.payment_model))).foldl
        (fun acc t => acc * (1 + t.escalation_rate.getD 0 / 100)) 1) := by
  obtain ⟨t, ht, hform⟩ := calcTD_get_form terms eff op tn hg i v hv
  rcases hform with ⟨_, rfl⟩ | ⟨j, u, _, _, rfl⟩ <;> exact ⟨rfl, rfl⟩

/-- Witness for claim C7 at a concrete input: a lone term with no escalation
fields receives a cumulative increase of 0 and a cumulative rate of 1. -/
theorem claim7_cumulative_cohort_witness :
    (resolveTerm (sortByOrdinal [termC1]) (some ⟨2024, 1, 1⟩) {} {} none
      termC1).cumulative_increase_amount = some 0 ∧
    (resolveTerm (sortByOrdinal [termC1]) (some ⟨2024, 1, 1⟩) {} {} none
      termC1).cumulative_escalation_rate = some 1 := by
  have h := claim7_cumulative_cohort [termC1] (some ⟨2024, 1, 1⟩) {} {} 0
    (resolveTerm (sortByOrdinal [termC1]) (some ⟨2024, 1, 1⟩) {} {} none termC1)
    (by simp) rfl
  constructor
  · rw [h.1]
    norm_num [sortByOrdinal, sortByKey, insertByKey, termC1,
      resolveTerm_term_ordinal, resolveTerm_payment_model]
  · rw [h.2]
    norm_num [sortByOrdinal, sortByKey, insertByKey, termC1,
      resolveTerm_term_ordinal, resolveTerm_payment_model]

/-- Claim C10: term date resolution is a no-op exactly when both the
effective date and the operational commencement date are missing; with a null
effective date but a provided commencement date, resolution still runs and a
first term without an operational override starts at that commencement
date. -/
theorem claim10_noop_guard (terms : List AgreementTerm) (eff : Option DateD)
    (op : OpDetails) (tn : Termination) :
    ((eff = none ∧ op.commencement_date = none) →
      calcAgreementTermDates terms eff op tn = terms) ∧
    (∀ (c : DateD) (t v : AgreementTerm), eff = none →
      op.commencement_date = some c →
      (sortByOrdinal terms)[0]? = some t →
      ¬(t.term_type = some "Construction" ∧ t.extension = false ∧
        op.construction_commencement.isSome = true) →
      ¬(t.term_type = some "Operations" ∧ t.extension = false ∧
        op.operations_commencement.isSome = true) →
      (calcAgreementTermDates terms eff op tn)[0]? = some v →
      v.start_date = some c) := by
  constructor
  · intro h
    unfold calcAgreementTermDates
    rw [if_pos h]
  · intro c t v h1 h2 ht hc ho hv
    have hg : ¬(eff = none ∧ op.commencement_date = none) := fun hx => by
      rw [h2] at hx
      exact Option.noConfusion hx.2
    rw [calcTD_eq terms eff op tn hg, resolveTerms_zero, ht] at hv
    simp only [Option.map_some', Option.some.injEq] at hv
    subst hv
    rw [resolveTerm_start_date]
    unfold resolveStartDate
    rw [if_neg hc, if_neg ho]
    simp [jsOr, h2]

/-- Witness for claim C10 at concrete inputs: resolution with neither date is
the identity, and with only a commencement date the first term starts
there. -/
theorem claim10_noop_guard_witness :
    (calcAgreementTermDates [termC1] none {} {} = [termC1]) ∧
    (resolveTerm (sortByOrdinal [termC1]) none
        { commencement_date := some ⟨2025, 6, 15⟩ } {} none termC1).start_date =
      some ⟨2025, 6, 15⟩ := by
  constructor
  · exact (claim10_noop_guard [termC1] none {} {}).1 ⟨rfl, rfl⟩
  · exact (claim10_noop_guard [termC1] none
      { commencement_date := some ⟨2025, 6, 15⟩ } {}).2 ⟨2025, 6, 15⟩ termC1
      (resolveTerm (sortByOrdinal [termC1]) none
        { commencement_date := some ⟨2025, 6, 15⟩ } {} none termC1)
      rfl rfl rfl (by decide) (by decide) rfl

/-- A fold whose step either selects the new element outright or keeps the
accumulator gives the same result from any two start values, unless it
returns each start value unchanged. -/
theorem foldl_select_cases {α : Type} (step : α → α → α)
    (hstep : ∀ x, (∀ acc, step acc x = x) ∨ (∀ acc, step acc x = acc)) :
    ∀ (xs : List α) (v w : α),
      xs.foldl step v = xs.foldl step w ∨
      (xs.foldl step v = v ∧ xs.foldl step w = w) := by
  intro xs
  induction xs with
  | nil => intro v w; exact Or.inr ⟨rfl, rfl⟩
  | cons x xs ih =>
    intro v w
    rcases hstep x with h | h
    · rw [List.foldl_cons, List.foldl_cons, h v, h w]
      exact Or.inl rfl
    · rw [List.foldl_cons, List.foldl_cons, h v, h w]
      exact ih v w

/-- A select-or-keep fold is idempotent. -/
theorem foldl_select_idem {α : Type} (step : α → α → α)
    (hstep : ∀ x, (∀ acc, step acc x = x) ∨ (∀ acc, step acc x = acc))
    (xs : List α) (v : α) :
    xs.foldl step (xs.foldl step v) = xs.foldl step v := by
  rcases foldl_select_cases step hstep xs (xs.foldl step v) v with h | ⟨h1, _⟩
  · exact h
  · exact h1

/-- A fold whose step preserves a predicate preserves it from the start
value. -/
theorem foldl_preserves {α β : Type} (step : α → β → α) (P : α → Prop)
    (hstep : ∀ acc x, P acc → P (step acc x)) :
    ∀ (xs : List β) (v : α), P v → P (xs.foldl step v) := by
  intro xs
  induction xs with
  | nil => intro v hv; exact hv
  | cons x xs ih =>
    intro v hv
    rw [List.foldl_cons]
    exact ih _ (hstep v x hv)

/-- The overlay fold keeps the document id. -/
theorem foldl_merge_id (l : List Doc) :
    ∀ s : Doc, (l.foldl mergeAmendment s).id = s.id := by
  induction l with
  | nil => intro s; rfl
  | cons a l ih =>
    intro s
    rw [List.foldl_cons, ih]
    rfl

/-- The overlay fold keeps the agreement group (the overlay never overwrites
it). -/
theorem foldl_merge_group (l : List Doc) :
    ∀ s : Doc, (l.foldl mergeAmendment s).agreement_group = s.agreement_group := by
  induction l with
  | nil => intro s; rfl
  | cons a l ih =>
    intro s
    rw [List.foldl_cons, ih]
    rfl

/-- The overlay fold keeps the generated payment events (the deprecated
recalculation block is commented out in the source). -/
theorem foldl_merge_date_payments (l : List Doc) :
    ∀ s : Doc, (l.foldl mergeAmendment s).date_payments = s.date_payments := by
  induction l with
  | nil => intro s; rfl
  | cons a l ih =>
    intro s
    rw [List.foldl_cons, ih]
    rfl

/-- The effective date after the overlay fold is the field-level
last-truthy-wins fold over the amendments' effective dates. -/
theorem foldl_merge_effective (l : List Doc) :
    ∀ s : Doc, (l.foldl mergeAmendment s).effective_date =
      (l.map Doc.effective_date).foldl
        (fun acc x => if x.isSome then x else acc) s.effective_date := by
  induction l with
  | nil => intro s; rfl
  | cons a l ih =>
    intro s
    rw [List.foldl_cons, List.map_cons, List.foldl_cons, ih]
    rfl

/-- The agreement terms after the overlay fold are the field-level
last-nonempty-wins fold over the amendments' term lists. -/
theorem foldl_merge_terms (l : List Doc) :
    ∀ s : Doc, (l.foldl mergeAmendment s).agreement_terms =
      (l.map Doc.agreement_terms).foldl
        (fun acc x => if 0 < x.length then x else acc) s.agreement_terms := by
  induction l with
  | nil => intro s; rfl
  | cons a l ih =>
    intro s
    rw [List.foldl_cons, List.map_cons, List.foldl_cons, ih]
    rfl

/-- The date payment models after the overlay fold are the start value's
models followed by every amendment's models, in order (additive
semantics). -/
theorem foldl_merge_dpm (l : List Doc) :
    ∀ s : Doc, (l.foldl mergeAmendment s).date_payment_models =
      s.date_payment_models ++ (l.map Doc.date_payment_models).flatten := by
  induction l with
  | nil => intro s; simp
  | cons a l ih =>
    intro s
    rw [List.foldl_cons, List.map_cons, List.flatten_cons, ih]
    show s.date_payment_models ++ a.date_payment_models ++ _ = _
    rw [List.append_assoc]

/-- The overlay keeps the document id. -/
theorem processA_id (self : Doc) (docs : List Doc) :
    (processAmendments self docs).id = self.id := by
  unfold processAmendments
  split_ifs
  · rfl
  · rfl
  · exact foldl_merge_id _ self

/-- The overlay keeps the agreement group. -/
theorem processA_group (self : Doc) (docs : List Doc) :
    (processAmendments self docs).agreement_group = self.agreement_group := by
  unfold processAmendments
  split_ifs
  · rfl
  · rfl
  · exact foldl_merge_group _ self

/-- The overlay keeps the effective date set when the base document has
one. -/
theorem processA_eff_isSome (self : Doc) (docs : List Doc)
    (h : self.effective_date.isSome = true) :
    (processAmendments self docs).effective_date.isSome = true := by
  unfold processAmendments
  split_ifs
  · exact h
  · exact h
  · rw [foldl_merge_effective]
    exact foldl_preserves _ (fun o : Option DateD => o.isSome = true)
      (fun acc x hacc => by by_cases hx : x.isSome <;> simp [hx, hacc]) _ _ h

/-- Claim C2, amended: applying the amendment overlay twice to an unchanged
document collection reproduces the once-merged `effective_date`,
`agreement_terms` and payment events, but the additive `date_payment_models`
receive every selected amendment's models a second time (one extra copy per
application, rather than no duplication). -/
theorem claim2_overlay_idempotence (base : Doc) (docs : List Doc)
    (hb : base.effective_date.isSome = true) :
    (processAmendments (processAmendments base docs) docs).effective_date =
      (processAmendments base docs).effective_date ∧
    (processAmendments (processAmendments base docs) docs).agreement_terms =
      (processAmendments base docs).agreement_terms ∧
    (processAmendments (processAmendments base docs) docs).date_payments =
      (processAmendments base docs).date_payments ∧
    (processAmendments (processAmendments base docs) docs).date_payment_models =
      (processAmendments base docs).date_payment_models ++
        ((sortByKey amendKey (selectAmendments base docs)).map
          Doc.date_payment_models).flatten := by
  have hbne : ¬base.effective_date = none := by
    intro hc
    rw [hc] at hb
    exact Bool.noConfusion hb
  set d1 := processAmendments base docs with hd1def
  have hid : d1.id = base.id := processA_id base docs
  have hgr : d1.agreement_group = base.agreement_group := processA_group base docs
  have hsel : selectAmendments d1 docs = selectAmendments base docs := by
    unfold selectAmendments
    simp only [hgr, hid]
  have heff1 : d1.effective_date.isSome = true := processA_eff_isSome base docs hb
  have heffne : ¬d1.effective_date = none := by
    intro hc
    rw [hc] at heff1
    exact Bool.noConfusion heff1
  by_cases hempty : (selectAmendments base docs).length = 0
  · have hnil : selectAmendments base docs = [] := List.length_eq_zero.mp hempty
    have hd2 : processAmendments d1 docs = d1 := by
      conv_lhs => unfold processAmendments
      rw [if_neg heffne, hsel, if_pos hempty]
    rw [hd2, hnil]
    exact ⟨rfl, rfl, rfl, by simp [sortByKey]⟩
  · have hd1f : d1 = (sortByKey amendKey (selectAmendments base docs)).foldl
        mergeAmendment base := by
      rw [hd1def]
      unfold processAmendments
      rw [if_neg hbne, if_neg hempty]
    have hd2 : processAmendments d1 docs =
        (sortByKey amendKey (selectAmendments base docs)).foldl mergeAmendment d1 := by
      conv_lhs => unfold processAmendments
      rw [if_neg heffne, hsel, if_neg hempty]
    refine ⟨?_, ?_, ?_, ?_⟩
    · rw [hd2, foldl_merge_effective]
      conv_lhs => rw [hd1f, foldl_merge_effective]
      conv_rhs => rw [hd1f, foldl_merge_effective]
      exact foldl_select_idem _ (fun x => by
        by_cases hx : x.isSome
        · exact Or.inl (fun acc => by simp [hx])
        · exact Or.inr (fun acc => by simp [hx])) _ _
    · rw [hd2, foldl_merge_terms]
      conv_lhs => rw [hd1f, foldl_merge_terms]
      conv_rhs => rw [hd1f, foldl_merge_terms]
      exact foldl_select_idem _ (fun x => by
        by_cases hx : 0 < x.length
        · exact Or.inl (fun acc => by simp [hx])
        · exact Or.inr (fun acc => by simp [hx])) _ _
    · rw [hd2, foldl_merge_date_payments]
    · rw [hd2, foldl_merge_dpm]

/-- The base document of the claim C2 example. -/
def baseC2 : Doc :=
  { id := 0, agreement_group := some "G", effective_date := some ⟨2020, 1, 1⟩ }

/-- The amendment document of the claim C2 example: one additive date payment
model. -/
def amdC2 : Doc :=
  { id := 1, agreement_group := some "G", amendment_date := some ⟨2021, 1, 1⟩,
    date_payment_models :=
      [{ date_one_time := some ⟨2021, 6, 1⟩, payment_amount := some 100 }] }

/-- Counterexample to claim C2 as stated: applying the overlay twice to the
same collection does not reproduce the once-merged `date_payment_models` —
the amendment's model is appended again. -/
theorem claim2_overlay_idempotence_cex :
    (processAmendments (processAmendments baseC2 [amdC2]) [amdC2]).date_payment_models ≠
      (processAmendments baseC2 [amdC2]).date_payment_models := by
  decide

/-- Witness for claim C2 at the concrete example: the second application
keeps the effective date, terms and payment events, and appends the selected
amendment's models once more. -/
theorem claim2_overlay_idempotence_witness :
    (processAmendments (processAmendments baseC2 [amdC2]) [amdC2]).effective_date =
      (processAmendments baseC2 [amdC2]).effective_date ∧
    (processAmendments (processAmendments baseC2 [amdC2]) [amdC2]).agreement_terms =
      (processAmendments baseC2 [amdC2]).agreement_terms ∧
    (processAmendments (processAmendments baseC2 [amdC2]) [amdC2]).date_payments =
      (processAmendments baseC2 [amdC2]).date_payments ∧
    (processAmendments (processAmendments baseC2 [amdC2]) [amdC2]).date_payment_models =
      (processAmendments baseC2 [amdC2]).date_payment_models ++
        ((sortByKey amendKey (selectAmendments baseC2 [amdC2])).map
          Doc.date_payment_models).flatten :=
  claim2_overlay_idempotence baseC2 [amdC2] (by decide)

end Jupiter
